import Mathlib

/-!
Verification of the secure session establishment subsystem of ada-remote:
session identifiers, key exchange, authenticated encryption, password
authentication, and the relay server's session registry and signaling logic.

Shallow embedding conventions:
* Rust machine integers become `Nat` with explicit modular reduction where
  overflow matters; byte strings become `List Nat` (each element < 256 where
  relevant).
* Fallible Rust functions returning `Result` become `Except String` (or
  `Option` when the error value carries no information the claims need).
* External crates (uuid, x25519_dalek, chacha20poly1305, argon2) are not part
  of this repository; the definitions embedding them are modelled from the
  specification and the crates' documented formats, and are marked as such in
  their doc comments.
-/

namespace AdaRemote

/-- Big-endian base-`b` digit list of `u`, exactly `k` digits (leading zeros
kept). Digit `i` from the left is `u / b ^ (k - 1 - i) % b`. -/
def beDigits (b u : Nat) : Nat → List Nat
  | 0 => []
  | k + 1 => u / b ^ k % b :: beDigits b u k

/-- Lowercase hex digit character for a value `d < 16` (`0`-`9`, `a`-`f`),
as produced by the uuid crate's lowercase hyphenated encoding. -/
def hexDigitChar (d : Nat) : Char :=
  if d < 10 then Char.ofNat (48 + d) else Char.ofNat (87 + d)

/-- Decimal digit character for a value `d < 10`. -/
def decDigitChar (d : Nat) : Char :=
  Char.ofNat (48 + d)

/-- Value of one hex digit character (accepting both cases), `none` when the
character is not a hex digit. -/
def hexDigitVal (c : Char) : Option Nat :=
  if 48 ≤ c.toNat ∧ c.toNat ≤ 57 then some (c.toNat - 48)
  else if 97 ≤ c.toNat ∧ c.toNat ≤ 102 then some (c.toNat - 87)
  else if 65 ≤ c.toNat ∧ c.toNat ≤ 70 then some (c.toNat - 55)
  else none

/-- Parse exactly `n` hex digit characters, folding them big-endian onto the
accumulator; returns the new accumulator and the remaining characters. -/
def parseHexN : Nat → List Char → Nat → Option (Nat × List Char)
  | 0, cs, acc => some (acc, cs)
  | _ + 1, [], _ => none
  | n + 1, c :: cs, acc =>
    match hexDigitVal c with
    | some v => parseHexN n cs (acc * 16 + v)
    | none => none

/-- Parse hyphen-separated groups of hex digits with the given group sizes;
the whole input must be consumed. -/
def parseGroupsAux : List Nat → List Char → Nat → Option Nat
  | [], [], acc => some acc
  | [], _ :: _, _ => none
  | n :: ns, cs, acc =>
    match parseHexN n cs acc with
    | none => none
    | some (acc2, cs2) =>
      match ns with
      | [] =>
        match cs2 with
        | [] => some acc2
        | _ :: _ => none
      | _ :: _ =>
        match cs2 with
        | '-' :: rest => parseGroupsAux ns rest acc2
        | _ => none

/-- URN branch of `uuid::Uuid::parse_str`: a `urn:uuid:` marker followed by
the hyphenated form. -/
def uuidTryParseUrn (cs : List Char) : Option Nat :=
  match cs with
  | 'u' :: 'r' :: 'n' :: ':' :: 'u' :: 'u' :: 'i' :: 'd' :: ':' :: rest =>
    parseGroupsAux [8, 4, 4, 4, 12] rest 0
  | _ => none

/-- Braced branch of `uuid::Uuid::parse_str`: the hyphenated form wrapped in
curly braces. -/
def uuidTryParseBraced (cs : List Char) : Option Nat :=
  match cs.head?, cs.getLast? with
  | some cOpen, some cClose =>
    if cOpen = Char.ofNat 123 ∧ cClose = Char.ofNat 125 then
      parseGroupsAux [8, 4, 4, 4, 12] (cs.drop 1).dropLast 0
    else none
  | _, _ => none

/-- Modelled from the spec: `uuid::Uuid::parse_str` (the uuid crate is
external to this repository). It accepts the simple form (32 hex digits),
the hyphenated form (8-4-4-4-12), the braced hyphenated form, and the URN
form, and fails on any other input; the result is the 128-bit value of the
hex digits read big-endian (`Uuid::as_u128`). -/
def uuidTryParse (cs : List Char) : Option Nat :=
  if cs.length = 36 then parseGroupsAux [8, 4, 4, 4, 12] cs 0
  else if cs.length = 32 then parseGroupsAux [32] cs 0
  else if cs.length = 45 then uuidTryParseUrn cs
  else if cs.length = 38 then uuidTryParseBraced cs
  else none

/-- `SessionId(Uuid)` from `crates/core/src/lib.rs`: a 128-bit random value,
embedded as its `u128` interpretation. -/
structure SessionId where
  val : Nat
  deriving DecidableEq, Repr

/-- `SessionId::from_string` (`crates/core/src/lib.rs` lines 20-23): parse a
string with `Uuid::parse_str`; `Ok` on success, a `uuid::Error` otherwise
(embedded as `Option`, the error value being irrelevant to the claims). -/
def SessionId.from_string (s : String) : Option SessionId :=
  (uuidTryParse s.toList).map SessionId.mk

/-- Modelled from the spec: the canonical serialization of a `SessionId`,
i.e. the lowercase hyphenated 8-4-4-4-12 rendering of the underlying
`Uuid` used by the uuid crate's `Display` and serde implementations
(external to this repository). -/
def uuidHyphenated (u : Nat) : List Char :=
  (beDigits 16 (u / 16 ^ 24) 8).map hexDigitChar ++
    ('-' :: ((beDigits 16 (u / 16 ^ 20) 4).map hexDigitChar ++
      ('-' :: ((beDigits 16 (u / 16 ^ 16) 4).map hexDigitChar ++
        ('-' :: ((beDigits 16 (u / 16 ^ 12) 4).map hexDigitChar ++
          ('-' :: (beDigits 16 u 12).map hexDigitChar)))))))

/-- The canonical string form of a `SessionId` (hyphenated UUID). -/
def SessionId.canonicalString (id : SessionId) : String :=
  String.mk (uuidHyphenated id.val)

/-- `impl fmt::Display for SessionId` (`crates/core/src/lib.rs` lines 31-36):
the 9-digit zero-padded decimal rendering of `as_u128() % 1_000_000_000`. -/
def SessionId.display (id : SessionId) : String :=
  String.mk ((beDigits 10 (id.val % 1000000000) 9).map decDigitChar)

theorem beDigits_length (b u : Nat) : ∀ k, (beDigits b u k).length = k := by
  intro k
  induction k with
  | zero => rfl
  | succ k ih => simp [beDigits, ih]

theorem hexDigitVal_hexDigitChar (d : Nat) (hd : d < 16) :
    hexDigitVal (hexDigitChar d) = some d := by
  interval_cases d <;> decide

theorem parseHexN_append (rest : List Char) (u : Nat) :
    ∀ k acc, parseHexN k ((beDigits 16 u k).map hexDigitChar ++ rest) acc =
      some (acc * 16 ^ k + u % 16 ^ k, rest) := by
  intro k
  induction k with
  | zero => intro acc; simp [beDigits, parseHexN, Nat.mod_one]
  | succ k ih =>
    intro acc
    have hd : u / 16 ^ k % 16 < 16 := Nat.mod_lt _ (by norm_num)
    simp only [beDigits, List.map_cons, List.cons_append, parseHexN,
      hexDigitVal_hexDigitChar _ hd, List.append_eq, ih]
    have hsplit : u % (16 ^ k * 16) = u % 16 ^ k + 16 ^ k * (u / 16 ^ k % 16) :=
      Nat.mod_mul
    rw [pow_succ, hsplit]
    simp only [Option.some.injEq, Prod.mk.injEq, and_true]
    ring

theorem parseHexN_exact (u k : Nat) : ∀ acc,
    parseHexN k ((beDigits 16 u k).map hexDigitChar) acc =
      some (acc * 16 ^ k + u % 16 ^ k, []) := by
  intro acc
  have h := parseHexN_append [] u k acc
  simpa using h

theorem uuidHyphenated_length (u : Nat) : (uuidHyphenated u).length = 36 := by
  simp [uuidHyphenated, beDigits_length]

theorem uuidTryParse_hyphenated (u : Nat) (hu : u < 2 ^ 128) :
    uuidTryParse (uuidHyphenated u) = some u := by
  rw [uuidTryParse, if_pos (uuidHyphenated_length u)]
  rw [uuidHyphenated]
  simp only [parseGroupsAux, parseHexN_append, parseHexN_exact]
  have h128 : u < 16 ^ 32 := by
    calc u < 2 ^ 128 := hu
    _ = 16 ^ 32 := by norm_num
  simp only [Option.some.injEq]
  norm_num
  omega

/-- C5 amended, main statement: for every 128-bit id, `from_string` round
trips with the canonical (hyphenated UUID) serialization, and the 9-digit
`Display` rendering is never accepted by `from_string`. -/
theorem sessionId_parse_roundtrip (u : Nat) (hu : u < 2 ^ 128) :
    SessionId.from_string (SessionId.canonicalString ⟨u⟩) = some ⟨u⟩ ∧
    SessionId.from_string (SessionId.display ⟨u⟩) = none := by
  constructor
  · simp [SessionId.from_string, SessionId.canonicalString,
      uuidTryParse_hyphenated u hu]
  · have hlen : ((beDigits 10 (u % 1000000000) 9).map decDigitChar).length = 9 := by
      simp [beDigits_length]
    simp [SessionId.from_string, SessionId.display, uuidTryParse, hlen]

/-- Witness for `sessionId_parse_roundtrip` at the concrete id 1. -/
theorem sessionId_parse_roundtrip_witness :
    SessionId.from_string (SessionId.canonicalString ⟨1⟩) = some ⟨1⟩ ∧
    SessionId.from_string (SessionId.display ⟨1⟩) = none :=
  sessionId_parse_roundtrip 1 (by norm_num)

/-- C5 counterexample: the claim as stated fails — `from_string` applied to
the `Display` rendering of the concrete id 1 (the string "000000001") does
not return the id; it fails to parse. -/
theorem sessionId_display_not_parseable :
    SessionId.from_string (SessionId.display ⟨1⟩) = none := by
  decide

/-! ## Relay server (`relay-server/src/main.rs`) -/

/-- The relay-side `SignalingMessage` enum (`relay-server/src/main.rs` lines
34-61): internally tagged, `session_id` carried as a `String`. -/
inductive RelaySignalingMessage
  | register (session_id : String)
  | join (session_id : String)
  | offer (session_id : String) (sdp : String)
  | answer (session_id : String) (sdp : String)
  | iceCandidate (session_id : String) (candidate : String)
  | success (message : String)
  | error (message : String)
  deriving DecidableEq, Repr

/-- `Session` (`relay-server/src/main.rs` lines 63-68): the registry record.
Socket addresses are embedded as opaque `Nat` handles. -/
structure Session where
  session_id : SessionId
  host_addr : Option Nat
  client_addr : Option Nat
  deriving DecidableEq, Repr

/-- `ServerState` (`relay-server/src/main.rs` lines 70-73): the shared
registry, a `HashMap<String, Session>` embedded as an association list with
`HashMap` insert/lookup semantics. -/
structure ServerState where
  sessions : List (String × Session)
  deriving DecidableEq, Repr

/-- `HashMap::get` on the association-list embedding. -/
def lookupAssoc {κ α : Type} [DecidableEq κ] (k : κ) : List (κ × α) → Option α
  | [] => none
  | (k2, v) :: rest => if k2 = k then some v else lookupAssoc k rest

/-- `HashMap::insert` on the association-list embedding: replaces the
binding when the key is present, appends it otherwise. -/
def insertAssoc {κ α : Type} [DecidableEq κ] (k : κ) (v : α) :
    List (κ × α) → List (κ × α)
  | [] => [(k, v)]
  | (k2, v2) :: rest =>
    if k2 = k then (k, v) :: rest else (k2, v2) :: insertAssoc k v rest

/-- `handle_signaling_message` (`relay-server/src/main.rs` lines 164-233).
Returns `Except.error` exactly where the Rust function returns `Err` (the
`?`-propagated "Invalid session ID" in the Register arm); otherwise the new
state and the response message. -/
def handle_signaling_message (msg : RelaySignalingMessage) (addr : Nat)
    (st : ServerState) : Except String (ServerState × RelaySignalingMessage) :=
  match msg with
  | .register sid =>
    match SessionId.from_string sid with
    | none => .error "Invalid session ID"
    | some parsed =>
      .ok (⟨insertAssoc sid ⟨parsed, some addr, none⟩ st.sessions⟩,
        .success ("Session " ++ sid ++ " registered"))
  | .join sid =>
    match lookupAssoc sid st.sessions with
    | some s =>
      .ok (⟨insertAssoc sid { s with client_addr := some addr } st.sessions⟩,
        .success ("Joined session " ++ sid))
    | none => .ok (st, .error "Session not found")
  | .offer _ _ => .ok (st, .success "Offer received")
  | .answer _ _ => .ok (st, .success "Answer received")
  | .iceCandidate _ _ => .ok (st, .success "ICE candidate received")
  | .success _ => .ok (st, .error "Invalid message type")
  | .error _ => .ok (st, .error "Invalid message type")

/-- Modelled from the spec: the result of `serde_json::from_str` (external
crate) on one inbound text frame — either undecodable, or a decoded relay
signaling message. -/
inductive Inbound
  | malformed
  | msg (m : RelaySignalingMessage)
  deriving DecidableEq, Repr

/-- Outcome of one iteration of the `handle_connection` receive loop
(`relay-server/src/main.rs` lines 128-158): either a response is sent and
the loop continues (connection stays open), or the handler returns `Err`,
ending `handle_connection` — the connection is closed and nothing is sent. -/
inductive ConnOutcome
  | replyAndContinue (st : ServerState) (resp : RelaySignalingMessage)
  | abort (e : String)
  deriving DecidableEq, Repr

/-- One iteration of the `handle_connection` loop on a decoded-or-not text
frame: undecodable input gets an "Invalid message format" error reply and
the loop continues; a decoded message goes to `handle_signaling_message`,
whose `Err` is propagated by `?`, aborting the loop. -/
def connection_step (st : ServerState) (addr : Nat) (inb : Inbound) : ConnOutcome :=
  match inb with
  | .malformed => .replyAndContinue st (.error "Invalid message format")
  | .msg m =>
    match handle_signaling_message m addr st with
    | .ok (st2, resp) => .replyAndContinue st2 resp
    | .error e => .abort e

theorem lookupAssoc_insertAssoc {κ α : Type} [DecidableEq κ] (k : κ) (v : α) :
    ∀ l, lookupAssoc k (insertAssoc k v l) = some v := by
  intro l
  induction l with
  | nil => simp [insertAssoc, lookupAssoc]
  | cons p rest ih =>
    obtain ⟨k2, v2⟩ := p
    by_cases h : k2 = k
    · simp [insertAssoc, lookupAssoc, h]
    · simp [insertAssoc, lookupAssoc, h, ih]

/-- C4 counterexample: a Register carrying the unparseable session id "xyz"
does not produce an error reply with the connection kept open — the handler
propagates an error and the connection is closed without any response. -/
theorem register_bad_id_closes_connection :
    connection_step ⟨[]⟩ 0 (.msg (.register "xyz")) = .abort "Invalid session ID" := by
  decide

/-- C4 amended: an inbound message that is not decodable as a
`SignalingMessage` gets an "Invalid message format" error reply and the
connection stays open; but a decoded Register whose `session_id` does not
parse makes the handler return an error, which closes the connection with
no reply sent. -/
theorem malformed_input_handling (st : ServerState) (addr : Nat) :
    connection_step st addr .malformed =
      .replyAndContinue st (.error "Invalid message format") ∧
    ∀ sid, SessionId.from_string sid = none →
      connection_step st addr (.msg (.register sid)) = .abort "Invalid session ID" := by
  constructor
  · rfl
  · intro sid h
    simp [connection_step, handle_signaling_message, h]

/-- Witness for `malformed_input_handling` at a concrete state and input. -/
theorem malformed_input_handling_witness :
    connection_step ⟨[]⟩ 0 .malformed =
      .replyAndContinue ⟨[]⟩ (.error "Invalid message format") ∧
    connection_step ⟨[]⟩ 0 (.msg (.register "xyz")) = .abort "Invalid session ID" := by
  have h := malformed_input_handling ⟨[]⟩ 0
  exact ⟨h.1, h.2 "xyz" (by decide)⟩

/-- C6: handling Register with a parseable id always responds with success
and leaves the registry mapping the id string to a session whose host
handle is the sender's address and whose client handle is empty — with no
guard, so a prior entry under the same id (any `st`) is overwritten. -/
theorem register_transition (st : ServerState) (addr : Nat) (sid : String)
    (u : SessionId) (h : SessionId.from_string sid = some u) :
    handle_signaling_message (.register sid) addr st =
      .ok (⟨insertAssoc sid ⟨u, some addr, none⟩ st.sessions⟩,
        .success ("Session " ++ sid ++ " registered")) ∧
    lookupAssoc sid (insertAssoc sid ⟨u, some addr, none⟩ st.sessions) =
      some ⟨u, some addr, none⟩ := by
  constructor
  · simp [handle_signaling_message, h]
  · exact lookupAssoc_insertAssoc sid _ st.sessions

/-- Witness for `register_transition`: registering over an existing entry
replaces its host handle and clears its client handle. -/
theorem register_transition_witness :
    handle_signaling_message
        (.register "00000000-0000-0000-0000-000000000000") 3
        ⟨[("00000000-0000-0000-0000-000000000000", ⟨⟨0⟩, some 1, some 2⟩)]⟩ =
      .ok (⟨[("00000000-0000-0000-0000-000000000000", ⟨⟨0⟩, some 3, none⟩)]⟩,
        .success "Session 00000000-0000-0000-0000-000000000000 registered") ∧
    lookupAssoc "00000000-0000-0000-0000-000000000000"
        (insertAssoc "00000000-0000-0000-0000-000000000000"
          (Session.mk ⟨0⟩ (some 3) none)
          [("00000000-0000-0000-0000-000000000000", Session.mk ⟨0⟩ (some 1) (some 2))]) =
      some (Session.mk ⟨0⟩ (some 3) none) := by
  have h := register_transition
    (ServerState.mk [("00000000-0000-0000-0000-000000000000",
      Session.mk ⟨0⟩ (some 1) (some 2))]) 3
    "00000000-0000-0000-0000-000000000000" ⟨0⟩ (by decide)
  refine ⟨?_, h.2⟩
  rw [h.1]
  rfl


/-- C7: Join on a registered id sets the client handle to the sender's
address (host handle unchanged) and succeeds; Join on an unknown id leaves
the registry unchanged and responds with the error "Session not found". -/
theorem join_transition (st : ServerState) (addr : Nat) (sid : String) :
    (∀ s, lookupAssoc sid st.sessions = some s →
      handle_signaling_message (.join sid) addr st =
        .ok (⟨insertAssoc sid { s with client_addr := some addr } st.sessions⟩,
          .success ("Joined session " ++ sid)) ∧
      lookupAssoc sid (insertAssoc sid { s with client_addr := some addr } st.sessions) =
        some { s with client_addr := some addr } ∧
      Session.host_addr { s with client_addr := some addr } = s.host_addr) ∧
    (lookupAssoc sid st.sessions = none →
      handle_signaling_message (.join sid) addr st = .ok (st, .error "Session not found")) := by
  constructor
  · intro s h
    refine ⟨by simp [handle_signaling_message, h], lookupAssoc_insertAssoc sid _ st.sessions, rfl⟩
  · intro h
    simp [handle_signaling_message, h]

/-- Witness for `join_transition`: a join on a present id and a join on an
absent id, at concrete states. -/
theorem join_transition_witness :
    handle_signaling_message (.join "abc") 5 ⟨[("abc", ⟨⟨0⟩, some 7, none⟩)]⟩ =
      .ok (⟨[("abc", ⟨⟨0⟩, some 7, some 5⟩)]⟩, .success "Joined session abc") ∧
    handle_signaling_message (.join "abc") 5 ⟨[]⟩ =
      .ok (⟨[]⟩, .error "Session not found") := by
  have h1 := (join_transition
    (ServerState.mk [("abc", Session.mk ⟨0⟩ (some 7) none)]) 5 "abc").1
    (Session.mk ⟨0⟩ (some 7) none) (by decide)
  have h2 := (join_transition (ServerState.mk []) 5 "abc").2 (by decide)
  refine ⟨?_, h2⟩
  rw [h1.1]
  rfl


/-! ## Key exchange (`crates/crypto/src/lib.rs` lines 32-56) -/

/-- Modelled from the spec: the X25519 field prime `2 ^ 255 - 19`
(x25519_dalek is external to this repository). -/
def curve25519P : Nat := 2 ^ 255 - 19

/-- Modelled from the spec: X25519 scalar clamping — clear the three low
bits, clear bit 255, set bit 254. -/
def clampScalar (k : Nat) : Nat := 2 ^ 254 + k % 2 ^ 254 / 8 * 8

/-- Modelled from the spec: X25519 scalar multiplication on the curve group
(x25519_dalek's `diffie_hellman`), embedded as exponentiation in the
multiplicative structure modulo `2 ^ 255 - 19`; the Diffie–Hellman symmetry
the claims are about is the commutativity of repeated group operation. -/
def scalarMult (k base : Nat) : Nat := base ^ k % curve25519P

/-- The X25519 base point. -/
def basePoint : Nat := 9

/-- Little-endian byte list of `u`, exactly `k` bytes. -/
def leBytes : Nat → Nat → List Nat
  | 0, _ => []
  | k + 1, u => u % 256 :: leBytes k (u / 256)

/-- `SharedSecret::as_bytes`: the 32-byte little-endian encoding of the
shared field element. -/
def SharedSecret.as_bytes (s : Nat) : List Nat := leBytes 32 s

/-- `KeyPair` (`crates/crypto/src/lib.rs` lines 32-36): an ephemeral secret
scalar and its public key. -/
structure KeyPair where
  secret : Nat
  public : Nat
  deriving DecidableEq, Repr

/-- `KeyPair::generate` (lines 39-45): draw random bytes `rng`, clamp them
into the secret scalar, and derive the public key from the secret. -/
def KeyPair.generate (rng : Nat) : KeyPair :=
  ⟨clampScalar rng, scalarMult (clampScalar rng) basePoint⟩

/-- `KeyPair::public_key` (lines 47-50). -/
def KeyPair.public_key (kp : KeyPair) : Nat := kp.public

/-- `KeyPair::compute_shared_secret` (lines 52-56): Diffie–Hellman between
the own secret and the peer's public key. In Rust this takes `self` by
value, which is what makes the secret single-use (see
`compute_shared_secret_owned`). -/
def KeyPair.compute_shared_secret (kp : KeyPair) (peer_public : Nat) : Nat :=
  scalarMult kp.secret peer_public

/-- C1: Diffie–Hellman symmetry — for any two independently generated key
pairs, each side derives the same 32-byte shared secret from its own secret
and the peer's public key. -/
theorem dh_symmetry (rngA rngB : Nat) :
    SharedSecret.as_bytes
        ((KeyPair.generate rngA).compute_shared_secret (KeyPair.generate rngB).public_key) =
      SharedSecret.as_bytes
        ((KeyPair.generate rngB).compute_shared_secret (KeyPair.generate rngA).public_key) := by
  simp only [KeyPair.generate, KeyPair.compute_shared_secret, KeyPair.public_key, scalarMult]
  rw [← Nat.pow_mod, ← Nat.pow_mod, ← pow_mul, ← pow_mul, Nat.mul_comm]

/-- Rust move semantics of `compute_shared_secret(self, ...)`: neither
`KeyPair` nor x25519_dalek's `EphemeralSecret` implements `Copy` or
`Clone`, so passing `self` by value consumes the key pair. Embedded as a
typestate step on an environment mapping variables to live key pairs: a
consumed variable's slot is emptied, and using an emptied slot is the
error state the borrow checker statically rules out. -/
def compute_shared_secret_owned (env : List (Nat × Option KeyPair)) (x : Nat)
    (peer_public : Nat) : Except String (List (Nat × Option KeyPair) × Nat) :=
  match lookupAssoc x env with
  | some (some kp) => .ok (insertAssoc x none env, kp.compute_shared_secret peer_public)
  | _ => .error "use of moved value"

/-- C9: the ephemeral secret is single-use — once a key pair has been
consumed to derive a shared secret, any second derivation from the same
variable is rejected. -/
theorem secret_single_use (env : List (Nat × Option KeyPair)) (x : Nat)
    (peer_public : Nat) (env2 : List (Nat × Option KeyPair)) (s : Nat)
    (h : compute_shared_secret_owned env x peer_public = .ok (env2, s)) :
    ∀ peer2, compute_shared_secret_owned env2 x peer2 = .error "use of moved value" := by
  intro peer2
  unfold compute_shared_secret_owned at h ⊢
  cases hl : lookupAssoc x env with
  | none => rw [hl] at h; cases h
  | some o =>
    cases o with
    | none => rw [hl] at h; cases h
    | some kp =>
      rw [hl] at h
      simp only [Except.ok.injEq, Prod.mk.injEq] at h
      rw [← h.1, lookupAssoc_insertAssoc]

/-- Witness for `secret_single_use` at a concrete environment. -/
theorem secret_single_use_witness :
    compute_shared_secret_owned [(0, none)] 0 11 = .error "use of moved value" :=
  secret_single_use [(0, some (KeyPair.mk 3 5))] 0 7 [(0, none)] (7 ^ 3 % curve25519P)
    (by rfl) 11

/-! ## Authenticated encryption (`crates/crypto/src/lib.rs` lines 58-116) -/

/-- Positional base-`B + 1` encoding of a digit list, low digit last; each
element is taken modulo `B` and shifted by one so that no digit is zero.
Injective on lists whose elements are below `B`. -/
def listEncBase (B : Nat) : List Nat → Nat
  | [] => 0
  | d :: t => listEncBase B t * (B + 1) + (d % B + 1)

theorem listEncBase_inj (B : Nat) : ∀ l1 l2 : List Nat,
    (∀ d ∈ l1, d < B) → (∀ d ∈ l2, d < B) →
    listEncBase B l1 = listEncBase B l2 → l1 = l2 := by
  intro l1
  induction l1 with
  | nil =>
    intro l2 _ h2 heq
    cases l2 with
    | nil => rfl
    | cons d t =>
      exfalso
      simp only [listEncBase] at heq
      omega
  | cons d1 t1 ih =>
    intro l2 h1 h2 heq
    cases l2 with
    | nil =>
      exfalso
      simp only [listEncBase] at heq
      omega
    | cons d2 t2 =>
      simp only [listEncBase] at heq
      have hd1 : d1 % B = d1 := Nat.mod_eq_of_lt (h1 d1 (by simp))
      have hd2 : d2 % B = d2 := Nat.mod_eq_of_lt (h2 d2 (by simp))
      rw [hd1, hd2] at heq
      have hb1 : d1 + 1 < B + 1 := by have := h1 d1 (by simp); omega
      have hb2 : d2 + 1 < B + 1 := by have := h2 d2 (by simp); omega
      have hmod1 : (listEncBase B t1 * (B + 1) + (d1 + 1)) % (B + 1) = d1 + 1 := by
        rw [Nat.mul_comm, Nat.mul_add_mod]
        exact Nat.mod_eq_of_lt hb1
      have hmod2 : (listEncBase B t2 * (B + 1) + (d2 + 1)) % (B + 1) = d2 + 1 := by
        rw [Nat.mul_comm, Nat.mul_add_mod]
        exact Nat.mod_eq_of_lt hb2
      have hd : d1 = d2 := by rw [heq] at hmod1; rw [hmod2] at hmod1; omega
      have ht : listEncBase B t1 = listEncBase B t2 := by
        have hB : 0 < B + 1 := Nat.succ_pos B
        have := heq
        rw [hd] at this
        have hmul : listEncBase B t1 * (B + 1) = listEncBase B t2 * (B + 1) := by omega
        exact Nat.eq_of_mul_eq_mul_right hB hmul
      have := ih t2 (fun d hd2 => h1 d (by simp [hd2])) (fun d hd2 => h2 d (by simp [hd2])) ht
      rw [hd, this]

/-- The separator stream authenticated by the ideal AEAD tag: the key,
nonce, associated data and ciphertext body, joined by the out-of-range
separator 256 (all payload elements are bytes, i.e. below 256). -/
def tagStream (key nonce aad body : List Nat) : List Nat :=
  key ++ 256 :: (nonce ++ 256 :: (aad ++ 256 :: body))

/-- Modelled from the spec: the Poly1305 authenticator of chacha20poly1305
(external crate), idealized as a perfectly binding tag over
(key, nonce, associated data, ciphertext body). -/
def tagF (key nonce aad body : List Nat) : Nat :=
  listEncBase 257 (tagStream key nonce aad body)

/-- Modelled from the spec: byte `i` of the ChaCha20 keystream for a key
and nonce (external crate); any fixed function works for the claims. -/
def ksByte (key nonce : List Nat) (i : Nat) : Nat :=
  (listEncBase 257 key + listEncBase 257 nonce + i) % 256

/-- Xor a list with the keystream starting at position `i`. -/
def xorFrom (key nonce : List Nat) : Nat → List Nat → List Nat
  | _, [] => []
  | i, b :: t => (b ^^^ ksByte key nonce i) :: xorFrom key nonce (i + 1) t

/-- The ChaCha20 stream cipher layer: xor with the keystream from position 0. -/
def xorStream (key nonce pt : List Nat) : List Nat := xorFrom key nonce 0 pt

/-- Split a list into everything but the last element, and the last element. -/
def splitLast : List Nat → Option (List Nat × Nat)
  | [] => none
  | a :: t =>
    match splitLast t with
    | none => some ([], a)
    | some (l, tg) => some (a :: l, tg)

/-- `EncryptedMessage` (`crates/crypto/src/lib.rs` lines 24-30): ciphertext
plus the nonce used for encryption. In the ideal-AEAD embedding the
ciphertext is the stream-ciphered body followed by one tag element. -/
structure EncryptedMessage where
  ciphertext : List Nat
  nonce : List Nat
  deriving DecidableEq, Repr

/-- `EncryptionContext` (lines 58-61): holds the AEAD key. -/
structure EncryptionContext where
  key : List Nat
  deriving DecidableEq, Repr

/-- `EncryptionContext::from_shared_secret` (lines 64-70): uses the shared
secret bytes directly as the key; always returns `Ok`. -/
def EncryptionContext.from_shared_secret (s : Nat) : Except String EncryptionContext :=
  .ok ⟨SharedSecret.as_bytes s⟩

/-- `EncryptionContext::encrypt` (lines 72-94): the random 12-byte nonce
drawn inside the function is an explicit argument here; the cipher call is
the ideal AEAD (stream xor plus binding tag). The Rust error branch is
unreachable in the model, so the result is always `Ok`. -/
def EncryptionContext.encrypt (ctx : EncryptionContext)
    (nonce plaintext associated_data : List Nat) : Except String EncryptedMessage :=
  .ok { ciphertext := xorStream ctx.key nonce plaintext ++
          [tagF ctx.key nonce associated_data (xorStream ctx.key nonce plaintext)],
        nonce := nonce }

/-- `EncryptionContext::decrypt` (lines 96-115): recompute the tag over the
received body with the supplied associated data and this context's key;
on mismatch fail with the decryption error and return no plaintext. -/
def EncryptionContext.decrypt (ctx : EncryptionContext)
    (encrypted : EncryptedMessage) (associated_data : List Nat) :
    Except String (List Nat) :=
  match splitLast encrypted.ciphertext with
  | none => .error "Decryption failed"
  | some (body, tag) =>
    if tagF ctx.key encrypted.nonce associated_data body = tag then
      .ok (xorStream ctx.key encrypted.nonce body)
    else .error "Decryption failed"

theorem xorFrom_involution (key nonce : List Nat) :
    ∀ pt i, xorFrom key nonce i (xorFrom key nonce i pt) = pt := by
  intro pt
  induction pt with
  | nil => intro i; rfl
  | cons b t ih =>
    intro i
    simp only [xorFrom, ih]
    rw [Nat.xor_assoc, Nat.xor_self, Nat.xor_zero]

theorem xorFrom_bytes (key nonce : List Nat) :
    ∀ pt i, (∀ b ∈ pt, b < 256) → ∀ b ∈ xorFrom key nonce i pt, b < 256 := by
  intro pt
  induction pt with
  | nil => intro i _ b hb; cases hb
  | cons a t ih =>
    intro i hpt b hb
    cases hb with
    | head =>
      have h1 : a < 2 ^ 8 := by have := hpt a (by simp); norm_num; omega
      have h2 : ksByte key nonce i < 2 ^ 8 := by
        have : ksByte key nonce i < 256 := Nat.mod_lt _ (by norm_num)
        norm_num
        omega
      have := Nat.xor_lt_two_pow h1 h2
      norm_num at this
      omega
    | tail _ hmem => exact ih (i + 1) (fun x hx => hpt x (by simp [hx])) b hmem

theorem splitLast_append (l : List Nat) (t : Nat) :
    splitLast (l ++ [t]) = some (l, t) := by
  induction l with
  | nil => rfl
  | cons a rest ih => simp [splitLast, ih]

theorem tagStream_bound (key nonce aad body : List Nat)
    (hk : ∀ b ∈ key, b < 256) (hn : ∀ b ∈ nonce, b < 256)
    (ha : ∀ b ∈ aad, b < 256) (hb : ∀ b ∈ body, b < 256) :
    ∀ d ∈ tagStream key nonce aad body, d < 257 := by
  intro d hd
  simp only [tagStream, List.mem_append, List.mem_cons] at hd
  rcases hd with h | h | h | h | h | h | h
  · exact Nat.lt_succ_of_lt (hk d h)
  · omega
  · exact Nat.lt_succ_of_lt (hn d h)
  · omega
  · exact Nat.lt_succ_of_lt (ha d h)
  · omega
  · exact Nat.lt_succ_of_lt (hb d h)

/-- If two components written after identical prefixes encode equally, and
both are byte lists (no 256), they are equal and so are the tails. -/
theorem append_sep_eq : ∀ l1 l2 r1 r2 : List Nat,
    (∀ b ∈ l1, b < 256) → (∀ b ∈ l2, b < 256) →
    l1 ++ 256 :: r1 = l2 ++ 256 :: r2 → l1 = l2 ∧ r1 = r2 := by
  intro l1
  induction l1 with
  | nil =>
    intro l2 r1 r2 _ h2 heq
    cases l2 with
    | nil => simpa using heq
    | cons b t =>
      exfalso
      simp only [List.nil_append, List.cons_append, List.cons.injEq] at heq
      have := h2 b (by simp)
      omega
  | cons a t1 ih =>
    intro l2 r1 r2 h1 h2 heq
    cases l2 with
    | nil =>
      exfalso
      simp only [List.nil_append, List.cons_append, List.cons.injEq] at heq
      have := h1 a (by simp)
      omega
    | cons b t2 =>
      simp only [List.cons_append, List.cons.injEq] at heq
      obtain ⟨hab, htail⟩ := heq
      have := ih t2 r1 r2 (fun x hx => h1 x (by simp [hx]))
        (fun x hx => h2 x (by simp [hx])) htail
      exact ⟨by rw [hab, this.1], this.2⟩

/-- Equal ideal tags over byte-list components force the components equal. -/
theorem tagF_inj (key key2 nonce aad aad2 body body2 : List Nat)
    (hk : ∀ b ∈ key, b < 256) (hk2 : ∀ b ∈ key2, b < 256)
    (hn : ∀ b ∈ nonce, b < 256)
    (ha : ∀ b ∈ aad, b < 256) (ha2 : ∀ b ∈ aad2, b < 256)
    (hb : ∀ b ∈ body, b < 256) (hb2 : ∀ b ∈ body2, b < 256)
    (heq : tagF key nonce aad body = tagF key2 nonce aad2 body2) :
    key = key2 ∧ aad = aad2 ∧ body = body2 := by
  have hstream : tagStream key nonce aad body = tagStream key2 nonce aad2 body2 :=
    listEncBase_inj 257 _ _ (tagStream_bound key nonce aad body hk hn ha hb)
      (tagStream_bound key2 nonce aad2 body2 hk2 hn ha2 hb2) heq
  unfold tagStream at hstream
  obtain ⟨hkey, hrest⟩ := append_sep_eq key key2 _ _ hk hk2 hstream
  obtain ⟨-, hrest2⟩ := append_sep_eq nonce nonce _ _ hn hn hrest
  obtain ⟨haad, hbody⟩ := append_sep_eq aad aad2 _ _ ha ha2 hrest2
  exact ⟨hkey, haad, hbody⟩

theorem set_append_of_lt {α : Type} : ∀ (l r : List α) (i : Nat) (v : α),
    i < l.length → (l ++ r).set i v = l.set i v ++ r := by
  intro l
  induction l with
  | nil => intro r i v h; cases h
  | cons a t ih =>
    intro r i v h
    cases i with
    | zero => rfl
    | succ i =>
      simp only [List.cons_append, List.set, List.append_eq]
      rw [ih r i v (by simpa using h)]

theorem set_append_last {α : Type} : ∀ (l : List α) (t v : α),
    (l ++ [t]).set l.length v = l ++ [v] := by
  intro l
  induction l with
  | nil => intro t v; rfl
  | cons a rest ih =>
    intro t v
    simp only [List.cons_append, List.length_cons, List.set, List.append_eq]
    rw [ih t v]

/-- C2: encrypt/decrypt round trip — for every plaintext and associated
data, with the encryption context built by `from_shared_secret` from a
shared secret, decrypting the encrypted message with the same associated
data returns exactly the plaintext. -/
theorem encrypt_decrypt_roundtrip (s : Nat) (nonce plaintext aad : List Nat)
    (ctx : EncryptionContext)
    (hctx : EncryptionContext.from_shared_secret s = .ok ctx)
    (em : EncryptedMessage)
    (hem : ctx.encrypt nonce plaintext aad = .ok em) :
    ctx.decrypt em aad = .ok plaintext := by
  simp only [EncryptionContext.encrypt, Except.ok.injEq] at hem
  rw [← hem]
  simp only [EncryptionContext.decrypt, splitLast_append, if_true]
  simp only [xorStream, xorFrom_involution]

/-- Witness for `encrypt_decrypt_roundtrip` at a concrete secret, nonce,
plaintext and associated data. -/
theorem encrypt_decrypt_roundtrip_witness :
    (EncryptionContext.mk (SharedSecret.as_bytes 0)).decrypt
      { ciphertext := xorStream (SharedSecret.as_bytes 0) [9] [1, 2] ++
          [tagF (SharedSecret.as_bytes 0) [9] [3]
            (xorStream (SharedSecret.as_bytes 0) [9] [1, 2])],
        nonce := [9] } [3] = .ok [1, 2] :=
  encrypt_decrypt_roundtrip 0 [9] [1, 2] [3]
    (EncryptionContext.mk (SharedSecret.as_bytes 0)) rfl
    { ciphertext := xorStream (SharedSecret.as_bytes 0) [9] [1, 2] ++
        [tagF (SharedSecret.as_bytes 0) [9] [3]
          (xorStream (SharedSecret.as_bytes 0) [9] [1, 2])],
      nonce := [9] } rfl

/-- C3: decryption failure is all-or-nothing — for a message produced by
`encrypt` (over byte-valued key, nonce, plaintext and associated data),
changing any one byte of the ciphertext, or supplying different associated
data, or decrypting under a different key, always yields the decryption
error and never any plaintext. -/
theorem decrypt_tamper_fails (key nonce plaintext aad : List Nat)
    (hkey : ∀ b ∈ key, b < 256) (hnonce : ∀ b ∈ nonce, b < 256)
    (haad : ∀ b ∈ aad, b < 256) (hpt : ∀ b ∈ plaintext, b < 256)
    (em : EncryptedMessage)
    (hem : (EncryptionContext.mk key).encrypt nonce plaintext aad = .ok em) :
    (∀ i v, i < em.ciphertext.length → v < 256 →
      em.ciphertext.set i v ≠ em.ciphertext →
      (EncryptionContext.mk key).decrypt ⟨em.ciphertext.set i v, em.nonce⟩ aad =
        .error "Decryption failed") ∧
    (∀ aad2, (∀ b ∈ aad2, b < 256) → aad2 ≠ aad →
      (EncryptionContext.mk key).decrypt em aad2 = .error "Decryption failed") ∧
    (∀ key2, (∀ b ∈ key2, b < 256) → key2 ≠ key →
      (EncryptionContext.mk key2).decrypt em aad = .error "Decryption failed") := by
  simp only [EncryptionContext.encrypt, Except.ok.injEq] at hem
  subst hem
  set body := xorStream key nonce plaintext with hbody
  have hbodybytes : ∀ b ∈ body, b < 256 := xorFrom_bytes key nonce plaintext 0 hpt
  refine ⟨?_, ?_, ?_⟩
  · intro i v hi hv hne
    simp only at hi hne ⊢
    rw [List.length_append, List.length_singleton] at hi
    rcases Nat.lt_succ_iff_lt_or_eq.mp hi with hileft | hilast
    · rw [set_append_of_lt _ _ _ _ hileft] at hne ⊢
      have hne2 : body.set i v ≠ body := by
        intro hcontra
        exact hne (by rw [hcontra])
      have hsetbytes : ∀ b ∈ body.set i v, b < 256 := by
        intro b hb
        rcases List.mem_or_eq_of_mem_set hb with h | h
        · exact hbodybytes b h
        · omega
      have hcond : ¬ tagF key nonce aad (body.set i v) = tagF key nonce aad body := by
        intro hcontra
        exact hne2 (tagF_inj key key nonce aad aad (body.set i v) body
          hkey hkey hnonce haad haad hsetbytes hbodybytes hcontra).2.2
      simp only [EncryptionContext.decrypt, splitLast_append]
      rw [if_neg hcond]
    · rw [hilast, set_append_last] at hne ⊢
      have hvne : v ≠ tagF key nonce aad body := by
        intro hcontra
        exact hne (by rw [hcontra])
      have hcond : ¬ tagF key nonce aad body = v := fun hcontra => hvne hcontra.symm
      simp only [EncryptionContext.decrypt, splitLast_append]
      rw [if_neg hcond]
  · intro aad2 haad2 hne
    have hcond : ¬ tagF key nonce aad2 body = tagF key nonce aad body := by
      intro hcontra
      exact hne (tagF_inj key key nonce aad2 aad body body
        hkey hkey hnonce haad2 haad hbodybytes hbodybytes hcontra).2.1
    simp only [EncryptionContext.decrypt, splitLast_append]
    rw [if_neg hcond]
  · intro key2 hkey2 hne
    have hcond : ¬ tagF key2 nonce aad body = tagF key nonce aad body := by
      intro hcontra
      exact hne (tagF_inj key2 key nonce aad aad body body
        hkey2 hkey hnonce haad haad hbodybytes hbodybytes hcontra).1
    simp only [EncryptionContext.decrypt, splitLast_append]
    rw [if_neg hcond]

/-- Witness for `decrypt_tamper_fails` at concrete key, nonce, plaintext,
associated data, a one-byte ciphertext change, a different associated data
and a different key. -/
theorem decrypt_tamper_fails_witness :
    ((EncryptionContext.mk [1]).decrypt
        ⟨(xorStream [1] [2] [3] ++ [tagF [1] [2] [4] (xorStream [1] [2] [3])]).set 0 9,
          [2]⟩ [4] = .error "Decryption failed") ∧
    ((EncryptionContext.mk [1]).decrypt
        ⟨xorStream [1] [2] [3] ++ [tagF [1] [2] [4] (xorStream [1] [2] [3])], [2]⟩ [5] =
      .error "Decryption failed") ∧
    ((EncryptionContext.mk [7]).decrypt
        ⟨xorStream [1] [2] [3] ++ [tagF [1] [2] [4] (xorStream [1] [2] [3])], [2]⟩ [4] =
      .error "Decryption failed") := by
  have h := decrypt_tamper_fails [1] [2] [3] [4]
    (by decide) (by decide) (by decide) (by decide)
    { ciphertext := xorStream [1] [2] [3] ++ [tagF [1] [2] [4] (xorStream [1] [2] [3])],
      nonce := [2] } rfl
  exact ⟨h.1 0 9 (by decide) (by decide) (by decide),
    h.2.1 [5] (by decide) (by decide),
    h.2.2 [7] (by decide) (by decide)⟩

/-! ## Password hashing (`crates/crypto/src/lib.rs` lines 118-151) -/

/-- Modelled from the spec: the self-describing PHC hash string produced by
the argon2 crate (parameters, salt, digest), embedded structurally as the
salt and digest it carries. -/
structure PasswordHashRecord where
  salt : Nat
  digest : Nat
  deriving DecidableEq, Repr

/-- Modelled from the spec: the Argon2 digest of a password and salt
(argon2 crate is external); idealized as collision-free in the password for
a fixed salt, matching the claim's "barring negligible hash collision". -/
def argon2Digest (password : String) (salt : Nat) : Nat :=
  Nat.pair (listEncBase (2 ^ 32) (password.toList.map Char.toNat)) salt

/-- `hash_password` (`crates/crypto/src/lib.rs` lines 119-133): the random
salt drawn from `OsRng` is an explicit argument; hashing itself never fails
in the model. -/
def hash_password (salt : Nat) (password : String) : Except String PasswordHashRecord :=
  .ok ⟨salt, argon2Digest password salt⟩

/-- `verify_password` (lines 136-151): recompute the digest with the salt
embedded in the hash and compare; a mismatch is the value `Ok false`,
never an `Err`. -/
def verify_password (password : String) (h : PasswordHashRecord) : Except String Bool :=
  .ok (decide (argon2Digest password h.salt = h.digest))

theorem char_toNat_inj (c1 c2 : Char) (h : c1.toNat = c2.toNat) : c1 = c2 :=
  Char.ext (UInt32.ext h)

theorem char_toNat_lt (c : Char) : c.toNat < 2 ^ 32 :=
  UInt32.toNat_lt c.val

theorem argon2Digest_inj (pw1 pw2 : String) (salt : Nat)
    (h : argon2Digest pw1 salt = argon2Digest pw2 salt) : pw1 = pw2 := by
  unfold argon2Digest at h
  have henc := (Nat.pair_eq_pair.mp h).1
  have hmap := listEncBase_inj (2 ^ 32) _ _
    (by intro d hd; rcases List.mem_map.mp hd with ⟨c, _, hc⟩; rw [← hc]; exact char_toNat_lt c)
    (by intro d hd; rcases List.mem_map.mp hd with ⟨c, _, hc⟩; rw [← hc]; exact char_toNat_lt c)
    henc
  have hlist : pw1.toList = pw2.toList :=
    List.map_injective_iff.mpr (fun a b hab => char_toNat_inj a b hab) hmap
  cases pw1 with
  | mk d1 =>
    cases pw2 with
    | mk d2 =>
      simp only [String.toList] at hlist
      rw [hlist]

/-- C8: password verification round trip — for a non-empty password, the
hash it produces verifies to `Ok true` against the same password and to
`Ok false` (a boolean, not an error) against any different password. -/
theorem password_verify_roundtrip (salt : Nat) (pw pw2 : String)
    (hpw : pw ≠ "") (hne : pw2 ≠ pw)
    (r : PasswordHashRecord) (hr : hash_password salt pw = .ok r) :
    verify_password pw r = .ok true ∧ verify_password pw2 r = .ok false := by
  simp only [hash_password, Except.ok.injEq] at hr
  subst hr
  constructor
  · simp [verify_password]
  · have hdig : argon2Digest pw2 salt ≠ argon2Digest pw salt :=
      fun hc => hne (argon2Digest_inj pw2 pw salt hc)
    simp [verify_password, hdig]

/-- Witness for `password_verify_roundtrip` at the passwords "a" and "b"
with salt 0. -/
theorem password_verify_roundtrip_witness :
    verify_password "a" ⟨0, argon2Digest "a" 0⟩ = .ok true ∧
    verify_password "b" ⟨0, argon2Digest "a" 0⟩ = .ok false :=
  password_verify_roundtrip 0 "a" "b" (by decide) (by decide)
    ⟨0, argon2Digest "a" 0⟩ rfl

/-! ## Client-side signaling decode (`crates/network/src/signaling.rs`) -/

/-- The JSON fragment relevant to the signaling wire format: string values
and objects with string keys. -/
inductive Json where
  | str (s : String)
  | obj (fields : List (String × Json))

/-- Modelled from the spec: serde serialization of the relay-side
`SignalingMessage` (internally tagged with `type`, `snake_case` variant
names), at the level of JSON objects. -/
def relay_message_to_json : RelaySignalingMessage → Json
  | .register sid => .obj [("type", .str "register"), ("session_id", .str sid)]
  | .join sid => .obj [("type", .str "join"), ("session_id", .str sid)]
  | .offer sid sdp => .obj [("type", .str "offer"), ("session_id", .str sid), ("sdp", .str sdp)]
  | .answer sid sdp => .obj [("type", .str "answer"), ("session_id", .str sid), ("sdp", .str sdp)]
  | .iceCandidate sid c =>
    .obj [("type", .str "ice_candidate"), ("session_id", .str sid), ("candidate", .str c)]
  | .success m => .obj [("type", .str "success"), ("message", .str m)]
  | .error m => .obj [("type", .str "error"), ("message", .str m)]

/-- The client-side `SignalingMessage` enum
(`crates/network/src/signaling.rs` lines 9-39): `session_id` is a typed
`SessionId`, and there is no `Success` variant. -/
inductive ClientSignalingMessage where
  | register (session_id : SessionId)
  | join (session_id : SessionId)
  | offer (session_id : SessionId) (sdp : String)
  | answer (session_id : SessionId) (sdp : String)
  | iceCandidate (session_id : SessionId) (candidate : String)
  | error (message : String)
  deriving DecidableEq, Repr

/-- Field lookup on a JSON object. -/
def jsonField (j : Json) (k : String) : Option Json :=
  match j with
  | .obj fields => lookupAssoc k fields
  | _ => none

/-- Extract a string value. -/
def jsonStr : Option Json → Option String
  | some (.str s) => some s
  | _ => none

/-- Decode the `session_id` field as a `SessionId` (serde delegates to the
uuid crate's string deserialization). -/
def decodeSessionIdField (j : Json) : Except String SessionId :=
  match jsonStr (jsonField j "session_id") with
  | none => .error "missing or non-string field session_id"
  | some s =>
    match SessionId.from_string s with
    | some sid => .ok sid
    | none => .error "invalid UUID string"

/-- Modelled from the spec: serde deserialization of the client-side
`SignalingMessage` (internally tagged): read the `type` tag, then the
variant's fields; an unknown tag is a serde "unknown variant" error. -/
def clientFromJson (j : Json) : Except String ClientSignalingMessage :=
  match jsonStr (jsonField j "type") with
  | none => .error "missing type tag"
  | some tag =>
    if tag = "register" then (decodeSessionIdField j).map ClientSignalingMessage.register
    else if tag = "join" then (decodeSessionIdField j).map ClientSignalingMessage.join
    else if tag = "offer" then
      match decodeSessionIdField j, jsonStr (jsonField j "sdp") with
      | .ok sid, some sdp => .ok (.offer sid sdp)
      | .error e, _ => .error e
      | .ok _, none => .error "missing field sdp"
    else if tag = "answer" then
      match decodeSessionIdField j, jsonStr (jsonField j "sdp") with
      | .ok sid, some sdp => .ok (.answer sid sdp)
      | .error e, _ => .error e
      | .ok _, none => .error "missing field sdp"
    else if tag = "ice_candidate" then
      match decodeSessionIdField j, jsonStr (jsonField j "candidate") with
      | .ok sid, some c => .ok (.iceCandidate sid c)
      | .error e, _ => .error e
      | .ok _, none => .error "missing field candidate"
    else if tag = "error" then
      match jsonStr (jsonField j "message") with
      | some m => .ok (.error m)
      | none => .error "missing field message"
    else .error ("unknown variant " ++ tag)

/-- C10: the relay answers every accepted Register and Join with a message
tagged `success`, and the client-side enum has no Success variant, so
deserializing that response on the client always fails with an
unknown-variant serialization error. -/
theorem client_cannot_decode_success (st : ServerState) (addr : Nat) :
    (∀ sid u st2 resp, SessionId.from_string sid = some u →
      handle_signaling_message (.register sid) addr st = .ok (st2, resp) →
      ∃ m, resp = RelaySignalingMessage.success m ∧
        clientFromJson (relay_message_to_json resp) = .error "unknown variant success") ∧
    (∀ sid sess st2 resp, lookupAssoc sid st.sessions = some sess →
      handle_signaling_message (.join sid) addr st = .ok (st2, resp) →
      ∃ m, resp = RelaySignalingMessage.success m ∧
        clientFromJson (relay_message_to_json resp) = .error "unknown variant success") := by
  constructor
  · intro sid u st2 resp hu hmsg
    simp only [handle_signaling_message, hu, Except.ok.injEq, Prod.mk.injEq] at hmsg
    refine ⟨"Session " ++ sid ++ " registered", hmsg.2.symm, ?_⟩
    rw [← hmsg.2]
    rfl
  · intro sid sess st2 resp hs hmsg
    simp only [handle_signaling_message, hs, Except.ok.injEq, Prod.mk.injEq] at hmsg
    refine ⟨"Joined session " ++ sid, hmsg.2.symm, ?_⟩
    rw [← hmsg.2]
    rfl

/-- Witness for `client_cannot_decode_success`: the concrete success
replies to a Register and to a Join both fail to decode on the client. -/
theorem client_cannot_decode_success_witness :
    clientFromJson (relay_message_to_json
        (.success "Session 00000000-0000-0000-0000-000000000000 registered")) =
      .error "unknown variant success" ∧
    clientFromJson (relay_message_to_json (.success "Joined session abc")) =
      .error "unknown variant success" := by
  obtain ⟨m1, hm1, hdec1⟩ := (client_cannot_decode_success (ServerState.mk []) 0).1
    "00000000-0000-0000-0000-000000000000" ⟨0⟩
    (ServerState.mk [("00000000-0000-0000-0000-000000000000",
      Session.mk ⟨0⟩ (some 0) none)])
    (.success "Session 00000000-0000-0000-0000-000000000000 registered")
    (by decide) rfl
  obtain ⟨m2, hm2, hdec2⟩ := (client_cannot_decode_success
    (ServerState.mk [("abc", Session.mk ⟨0⟩ (some 7) none)]) 9).2
    "abc" (Session.mk ⟨0⟩ (some 7) none)
    (ServerState.mk [("abc", Session.mk ⟨0⟩ (some 7) (some 9))])
    (.success "Joined session abc")
    (by decide) rfl
  exact ⟨hdec1, hdec2⟩

end AdaRemote
